import Mathlib

/-!
Shallow embedding of the lambdalocal gateway bridge (Go) and proofs about it.

The embedding follows the latest revision of the repository's source:
`parseInnerJSON` (print_response.go), `parseHTTPRequest`, `returnHTTPResponse`
and `parseTemplate` (api.go), and `LambdaRPCClient.Invoke` (invoke.go).
Go maps whose iteration order is irrelevant to the properties are modelled as
association lists; standard-library calls (JSON unmarshalling, the RPC dial
and call, file reading, YAML parsing) are modelled as explicit parameters or
outcome arguments, so every repository-level decision stays visible.
-/

namespace LambdaLocal

/-- Decoded JSON values, modelling a Go `any` produced by `json.Unmarshal`.
Go decodes JSON numbers into `float64`; the exact number representation is
irrelevant to the properties proved here, so numbers carry an `Int`. -/
inductive JsonValue where
  | jnull
  | jbool (b : Bool)
  | jnum (n : Int)
  | jstr (s : String)
  | jarr (elems : List JsonValue)
  | jobj (fields : List (String × JsonValue))

/-- `parseInnerJSON` from print_response.go: walk all key/value pairs of the
response map; where the value is a string, attempt to unmarshal it as JSON and
replace the value on success, leaving it unchanged when unmarshalling fails.
The Go map is modelled as an association list (keys unique in Go; only values
are rewritten, so ordering plays no role); `unmarshal` models
`json.Unmarshal` on a string: `some` on success, `none` on a parse error. -/
def parseInnerJSON (unmarshal : String → Option JsonValue)
    (data : List (String × JsonValue)) : List (String × JsonValue) :=
  data.map (fun kv =>
    match kv.2 with
    | JsonValue.jstr s =>
        match unmarshal s with
        | some newJSON => (kv.1, newJSON)
        | none => kv
    | _ => kv)

end LambdaLocal

namespace LambdaLocal

/-- The rewriting applied by `parseInnerJSON` to a single value. -/
def innerStep (unmarshal : String → Option JsonValue) (v : JsonValue) : JsonValue :=
  match v with
  | JsonValue.jstr s => (unmarshal s).getD (JsonValue.jstr s)
  | _ => v

theorem parseInnerJSON_eq_map (u : String → Option JsonValue)
    (data : List (String × JsonValue)) :
    parseInnerJSON u data = data.map (fun kv => (kv.1, innerStep u kv.2)) := by
  unfold parseInnerJSON innerStep
  induction data with
  | nil => rfl
  | cons kv rest ih =>
      simp only [List.map_cons, List.cons.injEq]
      refine ⟨?_, by simpa using ih⟩
      rcases kv with ⟨k, v⟩
      cases v <;> simp [Option.getD]
      case jstr s => cases u s <;> simp

end LambdaLocal

/-- C9: `parseInnerJSON` preserves the key list of its input exactly: no key is
added, none is removed, and entries stay in place; only values may change. -/
theorem LambdaLocal.parseInnerJSON_preserves_keys
    (u : String → Option LambdaLocal.JsonValue)
    (data : List (String × LambdaLocal.JsonValue)) :
    (LambdaLocal.parseInnerJSON u data).map Prod.fst = data.map Prod.fst := by
  rw [LambdaLocal.parseInnerJSON_eq_map]
  simp [List.map_map, Function.comp]

/-- C7: for every entry of the input map, `parseInnerJSON` replaces a string
value that unmarshals successfully with the unmarshalled result verbatim (so it
never descends into that result), leaves a string value that fails to
unmarshal unchanged, and never modifies a non-string value. -/
theorem LambdaLocal.parseInnerJSON_entry
    (u : String → Option LambdaLocal.JsonValue)
    (data : List (String × LambdaLocal.JsonValue))
    (i : Nat) (k : String) (v : LambdaLocal.JsonValue)
    (h : data[i]? = some (k, v)) :
    (∀ s j, v = LambdaLocal.JsonValue.jstr s → u s = some j →
        (LambdaLocal.parseInnerJSON u data)[i]? = some (k, j))
  ∧ (∀ s, v = LambdaLocal.JsonValue.jstr s → u s = none →
        (LambdaLocal.parseInnerJSON u data)[i]? = some (k, LambdaLocal.JsonValue.jstr s))
  ∧ ((∀ s, v ≠ LambdaLocal.JsonValue.jstr s) →
        (LambdaLocal.parseInnerJSON u data)[i]? = some (k, v)) := by
  rw [LambdaLocal.parseInnerJSON_eq_map]
  refine ⟨?_, ?_, ?_⟩
  · intro s j hv hu
    subst hv
    simp [List.getElem?_map, h, LambdaLocal.innerStep, hu]
  · intro s hv hu
    subst hv
    simp [List.getElem?_map, h, LambdaLocal.innerStep, hu]
  · intro hv
    have hstep : LambdaLocal.innerStep u v = v := by
      cases v with
      | jstr s => exact absurd rfl (hv s)
      | jnull => rfl
      | jbool b => rfl
      | jnum n => rfl
      | jarr elems => rfl
      | jobj fields => rfl
    simp [List.getElem?_map, h, hstep]

namespace LambdaLocal

/-- Concrete unmarshaller for the witness: every string decodes to the object
from the spec example. -/
def exampleUnmarshal : String → Option JsonValue :=
  fun _ => some (JsonValue.jobj [("x", JsonValue.jnum 1)])

/-- Concrete single-entry response map for the witness. -/
def exampleData : List (String × JsonValue) := [("k", JsonValue.jstr "payload")]

end LambdaLocal

theorem LambdaLocal.parseInnerJSON_entry_witness :
    LambdaLocal.exampleData[0]? =
        some ("k", LambdaLocal.JsonValue.jstr "payload")
  ∧ (LambdaLocal.parseInnerJSON LambdaLocal.exampleUnmarshal LambdaLocal.exampleData)[0]? =
        some ("k", LambdaLocal.JsonValue.jobj [("x", LambdaLocal.JsonValue.jnum 1)]) :=
  ⟨rfl,
    (LambdaLocal.parseInnerJSON_entry LambdaLocal.exampleUnmarshal LambdaLocal.exampleData
      0 "k" (LambdaLocal.JsonValue.jstr "payload") rfl).1 "payload"
      (LambdaLocal.JsonValue.jobj [("x", LambdaLocal.JsonValue.jnum 1)]) rfl rfl⟩

/-- C8: on a single-level input — one whose normalized form holds no string
value that still unmarshals as JSON — applying `parseInnerJSON` to its own
output produces no further change. -/
theorem LambdaLocal.parseInnerJSON_idempotent
    (u : String → Option LambdaLocal.JsonValue)
    (data : List (String × LambdaLocal.JsonValue))
    (h : ∀ kv ∈ LambdaLocal.parseInnerJSON u data,
        ∀ s, kv.2 = LambdaLocal.JsonValue.jstr s → u s = none) :
    LambdaLocal.parseInnerJSON u (LambdaLocal.parseInnerJSON u data) =
      LambdaLocal.parseInnerJSON u data := by
  rw [LambdaLocal.parseInnerJSON_eq_map u (LambdaLocal.parseInnerJSON u data)]
  have : ∀ kv ∈ LambdaLocal.parseInnerJSON u data,
      (kv.1, LambdaLocal.innerStep u kv.2) = kv := by
    intro kv hkv
    rcases kv with ⟨k, v⟩
    cases v with
    | jstr s =>
        have hu : u s = none := h (k, LambdaLocal.JsonValue.jstr s) hkv s rfl
        simp [LambdaLocal.innerStep, hu]
    | jnull => rfl
    | jbool b => rfl
    | jnum n => rfl
    | jarr elems => rfl
    | jobj fields => rfl
  calc (LambdaLocal.parseInnerJSON u data).map
          (fun kv => (kv.1, LambdaLocal.innerStep u kv.2))
      = (LambdaLocal.parseInnerJSON u data).map id := List.map_congr_left this
    _ = LambdaLocal.parseInnerJSON u data := List.map_id _

namespace LambdaLocal

/-- Unmarshaller for the idempotence witness: no string parses as JSON. -/
def noneUnmarshal : String → Option JsonValue := fun _ => none

/-- Single-level map for the idempotence witness. -/
def singleLevelData : List (String × JsonValue) :=
  [("k", JsonValue.jnum 123), ("m", JsonValue.jstr "not json")]

end LambdaLocal

theorem LambdaLocal.parseInnerJSON_idempotent_witness :
    (∀ kv ∈ LambdaLocal.parseInnerJSON LambdaLocal.noneUnmarshal LambdaLocal.singleLevelData,
        ∀ s, kv.2 = LambdaLocal.JsonValue.jstr s → LambdaLocal.noneUnmarshal s = none)
  ∧ LambdaLocal.parseInnerJSON LambdaLocal.noneUnmarshal
        (LambdaLocal.parseInnerJSON LambdaLocal.noneUnmarshal LambdaLocal.singleLevelData) =
      LambdaLocal.parseInnerJSON LambdaLocal.noneUnmarshal LambdaLocal.singleLevelData :=
  ⟨fun _ _ _ _ => rfl,
    LambdaLocal.parseInnerJSON_idempotent LambdaLocal.noneUnmarshal
      LambdaLocal.singleLevelData (fun _ _ _ _ => rfl)⟩

namespace LambdaLocal

/-- Go map indexing on an association list: `lookupBy m key` models `m[key]`
(with `none` for an absent key). -/
def lookupBy {α : Type} (m : List (String × α)) (key : String) : Option α :=
  match m with
  | [] => none
  | (k, v) :: rest => if k = key then some v else lookupBy rest key

/-- One step of Go's `m[key] = append(m[key], value)` on a `url.Values` /
`http.Header` style map: append `value` to the existing slice for `key`, or
bind `key` to the one-element slice when absent. -/
def insertAppend (m : List (String × List String)) (key value : String) :
    List (String × List String) :=
  match m with
  | [] => [(key, [value])]
  | (k, vs) :: rest =>
      if k = key then (k, vs ++ [value]) :: rest
      else (k, vs) :: insertAppend rest key value

/-- Fold the wire pairs into the multi-valued map, in arrival order, exactly as
Go's `net/url` and `net/textproto` build `url.Values` and `http.Header`. -/
def collectGo (acc : List (String × List String)) :
    List (String × String) → List (String × List String)
  | [] => acc
  | (k, v) :: rest => collectGo (insertAppend acc k v) rest

/-- The multi-valued map built from wire pairs, starting from the empty map. -/
def collectValues (pairs : List (String × String)) : List (String × List String) :=
  collectGo [] pairs

/-- All values carried by `key` among the wire pairs, in occurrence order. -/
def valsOf (pairs : List (String × String)) (key : String) : List String :=
  (pairs.filter (fun kv => kv.1 == key)).map Prod.snd

/-- Go `strings.Cut(s, string(sep))` over the characters of `s`: the part
before the first `sep` paired with the part after it, or `none` when `sep`
does not occur. -/
def cutOn (sep : Char) : List Char → List Char × Option (List Char)
  | [] => ([], none)
  | c :: cs =>
      if c = sep then ([], some cs)
      else
        let r := cutOn sep cs
        (c :: r.1, r.2)

/-- The segments produced by Go's repeated `strings.Cut(query, sep)` loop:
split at every occurrence of `sep`, keeping empty segments. -/
def splitOnChar (sep : Char) : List Char → List (List Char)
  | [] => [[]]
  | c :: cs =>
      let r := splitOnChar sep cs
      if c = sep then [] :: r
      else (c :: r.headD []) :: r.tail

/-- One query segment cut at its first `=`, as in `net/url.ParseQuery`:
the key is the part before the first `=`, the value the part after it
(empty when there is no `=`). -/
def splitPair (seg : List Char) : String × String :=
  match cutOn '=' seg with
  | (k, none) => (String.mk k, "")
  | (k, some v) => (String.mk k, String.mk v)

/-- The query string split into (key, value) occurrences in order, modelling
`net/url.ParseQuery`: segments are separated by `&`, empty segments are
skipped, each remaining segment is cut at its first `=`. Percent-decoding and
the rejection of `;` are omitted: they rewrite or drop individual keys and
values but do not affect the order of the surviving occurrences, which is
what the claims are about. -/
def parseQuery (rawQuery : String) : List (String × String) :=
  ((splitOnChar '&' rawQuery.data).filter (fun seg => !seg.isEmpty)).map splitPair

/-- The parts of a Go `*http.Request` consumed by `parseHTTPRequest`.
`headerLines` are the request's header fields in wire order with the
canonicalized names `net/http` stores (so `r.Header` is their grouping);
`pathValue` models `r.PathValue` resolved by the router. -/
structure HTTPRequest where
  method : String
  urlPath : String
  rawQuery : String
  headerLines : List (String × String)
  body : String
  pathValue : String → String

/-- `genericAPIEvent` from api.go (before JSON serialization). -/
structure GenericAPIEvent where
  resource : String
  path : String
  httpMethod : String
  headers : List (String × String)
  multiValueHeaders : List (String × List String)
  queryStringParameters : List (String × String)
  multiValueQueryStringParameters : List (String × List String)
  pathParameters : List (String × String)
  body : String

/-- `parseHTTPRequest` from api.go, up to the final `json.Marshal` (the claims
concern the event's fields, not its serialization) and with the body already
read (an I/O read error aborts before any of the maps are built). For each
header name, the single-value map takes `values[0]` and the multi-value map
takes the whole slice; for each query parameter, the single-value map takes
`values[len(values)-1]` and the multi-value map the whole slice. Go indexes
the slices directly, which is total because grouping only ever produces
non-empty slices; the embedding uses `headD`/`getLastD` with a default. -/
def parseHTTPRequest (r : HTTPRequest) (pathParamKeys : List String)
    (resourcePath : String) : GenericAPIEvent :=
  let hdr := collectValues r.headerLines
  let query := collectValues (parseQuery r.rawQuery)
  { resource := resourcePath
    path := r.urlPath
    httpMethod := r.method
    headers := hdr.map (fun kv => (kv.1, kv.2.headD ""))
    multiValueHeaders := hdr
    queryStringParameters := query.map (fun kv => (kv.1, kv.2.getLastD ""))
    multiValueQueryStringParameters := query
    pathParameters :=
      (pathParamKeys.filter (fun k => !(r.pathValue k).isEmpty)).map
        (fun k => (k, r.pathValue k))
    body := r.body }

theorem lookupBy_insertAppend (m : List (String × List String)) (k v key : String) :
    lookupBy (insertAppend m k v) key =
      if key = k then some ((lookupBy m k).getD [] ++ [v]) else lookupBy m key := by
  induction m with
  | nil =>
      by_cases hk : k = key
      · subst hk
        simp [insertAppend, lookupBy]
      · have hk' : ¬ key = k := fun h => hk (Eq.symm h)
        simp [insertAppend, lookupBy, hk, hk']
  | cons kv rest ih =>
      rcases kv with ⟨k₁, vs⟩
      by_cases h₁ : k₁ = k
      · subst h₁
        by_cases hk : k₁ = key
        · subst hk
          simp [insertAppend, lookupBy]
        · have hk' : ¬ key = k₁ := fun h => hk (Eq.symm h)
          simp [insertAppend, lookupBy, hk, hk']
      · by_cases hk : k₁ = key
        · subst hk
          simp [insertAppend, lookupBy, h₁]
        · simp [insertAppend, lookupBy, h₁, hk, ih]

theorem valsOf_cons (k v key : String) (rest : List (String × String)) :
    valsOf ((k, v) :: rest) key =
      if k = key then v :: valsOf rest key else valsOf rest key := by
  simp only [valsOf, List.filter_cons]
  by_cases h : k = key
  · simp [h]
  · simp [h, beq_iff_eq]

theorem lookupBy_collectGo (pairs : List (String × String))
    (acc : List (String × List String)) (key : String) :
    lookupBy (collectGo acc pairs) key =
      match lookupBy acc key with
      | some vs => some (vs ++ valsOf pairs key)
      | none => if valsOf pairs key = [] then none else some (valsOf pairs key) := by
  induction pairs generalizing acc with
  | nil =>
      cases h : lookupBy acc key <;> simp [collectGo, valsOf, h]
  | cons kv rest ih =>
      rcases kv with ⟨k, v⟩
      have hstep : collectGo acc ((k, v) :: rest) = collectGo (insertAppend acc k v) rest := rfl
      rw [hstep, ih, lookupBy_insertAppend, valsOf_cons]
      by_cases hk : k = key
      · subst hk
        simp only [if_pos rfl]
        cases h : lookupBy acc k <;> simp [h, List.append_assoc]
      · have hk' : ¬ key = k := fun h => hk (Eq.symm h)
        simp only [if_neg hk, if_neg hk']

theorem lookupBy_collectValues (pairs : List (String × String)) (key : String) :
    lookupBy (collectValues pairs) key =
      if valsOf pairs key = [] then none else some (valsOf pairs key) := by
  rw [collectValues, lookupBy_collectGo]
  rfl

theorem lookupBy_map_snd {α β : Type} (f : α → β) (m : List (String × α)) (key : String) :
    lookupBy (m.map (fun kv => (kv.1, f kv.2))) key = (lookupBy m key).map f := by
  induction m with
  | nil => rfl
  | cons kv rest ih =>
      rcases kv with ⟨k, v⟩
      by_cases h : k = key <;> simp [lookupBy, h, ih]

theorem headD_eq_head {α : Type} (l : List α) (d : α) (h : l ≠ []) :
    l.headD d = l.head h := by
  cases l with
  | nil => exact absurd rfl h
  | cons a as => rfl

theorem getLastD_eq_getLast {α : Type} (l : List α) (d : α) (h : l ≠ []) :
    l.getLastD d = l.getLast h := by
  cases l with
  | nil => exact absurd rfl h
  | cons a as => simp [List.getLastD_eq_getLast?, List.getLast?_eq_getLast (a :: as) h]

end LambdaLocal

/-- C1: for every query parameter name occurring in the request's query
string, the single-value `queryStringParameters` map built by
`parseHTTPRequest` binds the name to its last occurrence and the
`multiValueQueryStringParameters` map binds it to the full ordered list of all
its values. -/
theorem LambdaLocal.parseHTTPRequest_query_last_wins
    (r : LambdaLocal.HTTPRequest) (pathParamKeys : List String)
    (resourcePath name : String)
    (h : LambdaLocal.valsOf (LambdaLocal.parseQuery r.rawQuery) name ≠ []) :
    LambdaLocal.lookupBy
        (LambdaLocal.parseHTTPRequest r pathParamKeys resourcePath).multiValueQueryStringParameters
        name
      = some (LambdaLocal.valsOf (LambdaLocal.parseQuery r.rawQuery) name)
  ∧ LambdaLocal.lookupBy
        (LambdaLocal.parseHTTPRequest r pathParamKeys resourcePath).queryStringParameters
        name
      = some ((LambdaLocal.valsOf (LambdaLocal.parseQuery r.rawQuery) name).getLast h) := by
  constructor
  · show LambdaLocal.lookupBy
        (LambdaLocal.collectValues (LambdaLocal.parseQuery r.rawQuery)) name = _
    rw [LambdaLocal.lookupBy_collectValues, if_neg h]
  · show LambdaLocal.lookupBy
        ((LambdaLocal.collectValues (LambdaLocal.parseQuery r.rawQuery)).map
          (fun kv => (kv.1, kv.2.getLastD ""))) name = _
    rw [LambdaLocal.lookupBy_map_snd (fun vs => vs.getLastD "")
          (LambdaLocal.collectValues (LambdaLocal.parseQuery r.rawQuery)) name,
        LambdaLocal.lookupBy_collectValues, if_neg h]
    rw [Option.map_some', LambdaLocal.getLastD_eq_getLast _ _ h]

namespace LambdaLocal

/-- The request from the spec example, carrying query string `a=1&a=2`. -/
def queryExampleRequest : HTTPRequest :=
  { method := "GET"
    urlPath := "/p"
    rawQuery := "a=1&a=2"
    headerLines := []
    body := ""
    pathValue := fun _ => "" }

end LambdaLocal

theorem LambdaLocal.parseHTTPRequest_query_last_wins_witness :
    LambdaLocal.valsOf
        (LambdaLocal.parseQuery LambdaLocal.queryExampleRequest.rawQuery) "a" ≠ []
  ∧ LambdaLocal.lookupBy
        (LambdaLocal.parseHTTPRequest LambdaLocal.queryExampleRequest
          [] "/p").multiValueQueryStringParameters "a" = some ["1", "2"]
  ∧ LambdaLocal.lookupBy
        (LambdaLocal.parseHTTPRequest LambdaLocal.queryExampleRequest
          [] "/p").queryStringParameters "a" = some "2" := by
  have h : LambdaLocal.valsOf
      (LambdaLocal.parseQuery LambdaLocal.queryExampleRequest.rawQuery) "a" ≠ [] := by decide
  have hm := LambdaLocal.parseHTTPRequest_query_last_wins
    LambdaLocal.queryExampleRequest [] "/p" "a" h
  exact ⟨h, hm.1.trans (by decide), hm.2.trans rfl⟩

/-- C2: for every header name present on the request, the single-value
`headers` map built by `parseHTTPRequest` binds the name to its first value
and the `multiValueHeaders` map binds it to the full ordered list of all its
values. -/
theorem LambdaLocal.parseHTTPRequest_header_first_wins
    (r : LambdaLocal.HTTPRequest) (pathParamKeys : List String)
    (resourcePath name : String)
    (h : LambdaLocal.valsOf r.headerLines name ≠ []) :
    LambdaLocal.lookupBy
        (LambdaLocal.parseHTTPRequest r pathParamKeys resourcePath).multiValueHeaders name
      = some (LambdaLocal.valsOf r.headerLines name)
  ∧ LambdaLocal.lookupBy
        (LambdaLocal.parseHTTPRequest r pathParamKeys resourcePath).headers name
      = some ((LambdaLocal.valsOf r.headerLines name).head h) := by
  constructor
  · show LambdaLocal.lookupBy (LambdaLocal.collectValues r.headerLines) name = _
    rw [LambdaLocal.lookupBy_collectValues, if_neg h]
  · show LambdaLocal.lookupBy
        ((LambdaLocal.collectValues r.headerLines).map
          (fun kv => (kv.1, kv.2.headD ""))) name = _
    rw [LambdaLocal.lookupBy_map_snd (fun vs => vs.headD "")
          (LambdaLocal.collectValues r.headerLines) name,
        LambdaLocal.lookupBy_collectValues, if_neg h]
    rw [Option.map_some', LambdaLocal.headD_eq_head _ _ h]

namespace LambdaLocal

/-- The request from the spec example, carrying header `H` twice: `v1`, `v2`. -/
def headerExampleRequest : HTTPRequest :=
  { method := "GET"
    urlPath := "/p"
    rawQuery := ""
    headerLines := [("H", "v1"), ("H", "v2")]
    body := ""
    pathValue := fun _ => "" }

end LambdaLocal

theorem LambdaLocal.parseHTTPRequest_header_first_wins_witness :
    LambdaLocal.valsOf LambdaLocal.headerExampleRequest.headerLines "H" ≠ []
  ∧ LambdaLocal.lookupBy
        (LambdaLocal.parseHTTPRequest LambdaLocal.headerExampleRequest
          [] "/p").multiValueHeaders "H" = some ["v1", "v2"]
  ∧ LambdaLocal.lookupBy
        (LambdaLocal.parseHTTPRequest LambdaLocal.headerExampleRequest
          [] "/p").headers "H" = some "v1" := by
  have h : LambdaLocal.valsOf LambdaLocal.headerExampleRequest.headerLines "H" ≠ [] := by decide
  have hm := LambdaLocal.parseHTTPRequest_header_first_wins
    LambdaLocal.headerExampleRequest [] "/p" "H" h
  exact ⟨h, hm.1.trans (by decide), hm.2.trans rfl⟩

namespace LambdaLocal

/-- `messages.InvokeResponse_Error`: only the message is consumed by
`returnHTTPResponse`; the error type and stack trace feed logging alone. -/
structure InvokeError where
  message : String
deriving DecidableEq

/-- `messages.InvokeResponse`, the RPC reply envelope. `payload` models the
byte slice (a nil slice as the empty string). -/
structure InvokeResponse where
  payload : String
  error : Option InvokeError
deriving DecidableEq

/-- The zero value of `messages.InvokeResponse`: nil payload, nil error. -/
def zeroInvokeResponse : InvokeResponse :=
  { payload := "", error := none }

/-- `genericAPIResponse` from api.go. `statusCode` is a Go `int`. -/
structure GenericAPIResponse where
  statusCode : Int
  headers : List (String × String)
  multiValueHeaders : List (String × List String)
  body : String
  isBase64Encoded : Bool
deriving DecidableEq

/-- The operations `returnHTTPResponse` applies to its `http.ResponseWriter`,
recorded in application order: `w.Header().Set(k, v)`, `w.WriteHeader(code)`
and `w.Write(body)`. -/
inductive WriterOp where
  | setHeader (k v : String)
  | writeHeader (status : Int)
  | write (body : String)
deriving DecidableEq

/-- `net/http`'s `http.Error` helper: reply with the given status code and the
message as a plain-text body (its content-type bookkeeping and trailing
newline are presentation details of the standard library, not modelled). -/
def httpError (msg : String) (code : Int) : List WriterOp :=
  [WriterOp.writeHeader code, WriterOp.write msg]

/-- `returnHTTPResponse` from api.go. `decode` models
`json.Unmarshal(invokeResponse.Payload, &APIResponse)`; the writer is modelled
by the returned operation trace, so `w.Write` itself cannot fail here (its
I/O error path only wraps the writer's own failure). On a remote error the
function replies via `http.Error` with status 500 and returns `nil`; otherwise
it decodes the payload (wrapping a decode failure), copies the headers, writes
the status code — 500 when the declared one is zero — and writes the body. -/
def returnHTTPResponse (decode : String → Except String GenericAPIResponse)
    (invokeResponse : InvokeResponse) : Except String (List WriterOp) :=
  match invokeResponse.error with
  | some e => Except.ok (httpError e.message 500)
  | none =>
      match decode invokeResponse.payload with
      | Except.error err =>
          Except.error ("[in lambdalocal.returnHTTPResponse] Unmarshal payload failed: " ++ err)
      | Except.ok APIResponse =>
          Except.ok
            (APIResponse.headers.map (fun kv => WriterOp.setHeader kv.1 kv.2)
              ++ [WriterOp.writeHeader
                    (if APIResponse.statusCode = 0 then 500 else APIResponse.statusCode),
                  WriterOp.write APIResponse.body])

end LambdaLocal

/-- C3: whenever the reply envelope carries a remote error, `returnHTTPResponse`
replies with status 500 and the error's message as the body, touches nothing
else (no header copy, no payload decode — the result does not depend on
`decode` at all), and returns without error. -/
theorem LambdaLocal.returnHTTPResponse_remote_error
    (decode : String → Except String LambdaLocal.GenericAPIResponse)
    (resp : LambdaLocal.InvokeResponse) (e : LambdaLocal.InvokeError)
    (h : resp.error = some e) :
    LambdaLocal.returnHTTPResponse decode resp =
      Except.ok [LambdaLocal.WriterOp.writeHeader 500,
                 LambdaLocal.WriterOp.write e.message] := by
  unfold LambdaLocal.returnHTTPResponse
  rw [h]
  rfl

theorem LambdaLocal.returnHTTPResponse_remote_error_witness :
    ({ payload := "ignored", error := some { message := "boom" } } :
        LambdaLocal.InvokeResponse).error = some { message := "boom" }
  ∧ LambdaLocal.returnHTTPResponse (fun _ => Except.error "never used")
      { payload := "ignored", error := some { message := "boom" } } =
        Except.ok [LambdaLocal.WriterOp.writeHeader 500,
                   LambdaLocal.WriterOp.write "boom"] :=
  ⟨rfl, LambdaLocal.returnHTTPResponse_remote_error (fun _ => Except.error "never used")
    { payload := "ignored", error := some { message := "boom" } } { message := "boom" } rfl⟩

/-- C4: with no remote error and a successfully decoded payload,
`returnHTTPResponse` first copies the reply's headers verbatim, then writes
status 500 when the declared `statusCode` is zero and exactly the declared
value otherwise, and then writes the body verbatim, returning without error. -/
theorem LambdaLocal.returnHTTPResponse_status_code
    (decode : String → Except String LambdaLocal.GenericAPIResponse)
    (resp : LambdaLocal.InvokeResponse) (api : LambdaLocal.GenericAPIResponse)
    (h₁ : resp.error = none) (h₂ : decode resp.payload = Except.ok api) :
    LambdaLocal.returnHTTPResponse decode resp =
      Except.ok
        (api.headers.map (fun kv => LambdaLocal.WriterOp.setHeader kv.1 kv.2)
          ++ [LambdaLocal.WriterOp.writeHeader
                (if api.statusCode = 0 then 500 else api.statusCode),
              LambdaLocal.WriterOp.write api.body]) := by
  unfold LambdaLocal.returnHTTPResponse
  rw [h₁, h₂]

namespace LambdaLocal

/-- The reply of the spec example, with its `statusCode` field absent
(decoded as Go's zero value). -/
def missingStatusReply : GenericAPIResponse :=
  { statusCode := 0
    headers := [("Content-Type", "application/json")]
    multiValueHeaders := []
    body := "hello"
    isBase64Encoded := false }

end LambdaLocal

theorem LambdaLocal.returnHTTPResponse_status_code_witness :
    ({ payload := "reply", error := none } : LambdaLocal.InvokeResponse).error = none
  ∧ ((fun _ => Except.ok LambdaLocal.missingStatusReply :
        String → Except String LambdaLocal.GenericAPIResponse) "reply" =
      Except.ok LambdaLocal.missingStatusReply)
  ∧ LambdaLocal.returnHTTPResponse (fun _ => Except.ok LambdaLocal.missingStatusReply)
      { payload := "reply", error := none } =
        Except.ok [LambdaLocal.WriterOp.setHeader "Content-Type" "application/json",
                   LambdaLocal.WriterOp.writeHeader 500,
                   LambdaLocal.WriterOp.write "hello"] :=
  ⟨rfl, rfl,
    (LambdaLocal.returnHTTPResponse_status_code (fun _ => Except.ok LambdaLocal.missingStatusReply)
      { payload := "reply", error := none } LambdaLocal.missingStatusReply rfl rfl).trans
      rfl⟩

namespace LambdaLocal

/-- `messages.InvokeRequest` as filled by `Invoke`: payload, a request id, and
the absolute deadline split into Unix seconds and the nanosecond remainder. -/
structure InvokeRequest where
  payload : String
  requestId : String
  deadlineSeconds : Int
  deadlineNanos : Int
deriving DecidableEq

/-- `LambdaRPCClient` from invoke.go. `executionLimit` is a duration in
nanoseconds (Go's `time.Duration` unit). -/
structure LambdaRPCClient where
  address : String
  executionLimit : Nat
  serviceMethod : String

/-- The wrapped error `Invoke` returns when `rpc.Dial` fails. -/
def dialErrorMsg (address cause : String) : String :=
  "[in lambdalocal.invoke] rpcDial error, address " ++ address ++ ": " ++ cause

/-- The wrapped error `Invoke` returns when `client.Call` fails. -/
def callErrorMsg (cause : String) : String :=
  "[in lambdalocal.invoke] client.Call error: " ++ cause

/-- `LambdaRPCClient.Invoke` from invoke.go. `timeNowNanos` models
`time.Now()` as nanoseconds since the Unix epoch, so the absolute deadline is
`timeNowNanos + executionLimit`, `deadline.Unix()` its division by 10^9 and
`deadline.Nanosecond()` the remainder; `uuid` models `uuid.New().String()`.
`dial` is the outcome of `rpc.Dial("tcp", l.address)` and `call` the outcome
of `client.Call(l.serviceMethod, request, &response)` on whatever request is
passed. The result pairs Go's `(response, err)` return with the list of RPC
calls actually issued, in order; the deferred `client.Close()` releases the
connection on every exit path and has no observable effect here. -/
def Invoke (l : LambdaRPCClient) (timeNowNanos : Nat) (uuid : String)
    (dial : Except String Unit)
    (call : InvokeRequest → Except String InvokeResponse)
    (data : String) : (InvokeResponse × Option String) × List InvokeRequest :=
  let deadline := timeNowNanos + l.executionLimit
  let request : InvokeRequest :=
    { payload := data
      requestId := uuid
      deadlineSeconds := Int.ofNat (deadline / 1000000000)
      deadlineNanos := Int.ofNat (deadline % 1000000000) }
  match dial with
  | Except.error err => ((zeroInvokeResponse, some (dialErrorMsg l.address err)), [])
  | Except.ok _ =>
      match call request with
      | Except.error err => ((zeroInvokeResponse, some (callErrorMsg err)), [request])
      | Except.ok response => ((response, none), [request])

end LambdaLocal

/-- C5: `Invoke` never issues more than one RPC call; every call it issues
carries the payload and the absolute deadline `now + executionLimit`; when the
dial succeeds it issues exactly that one call, returning the reply envelope
without error on call success and the zero-value envelope with a wrapped
"call" error on call failure; when the dial fails it returns the zero-value
envelope with a wrapped "dial" error. -/
theorem LambdaLocal.Invoke_one_call
    (l : LambdaLocal.LambdaRPCClient) (now : Nat) (uuid data : String)
    (dial : Except String Unit)
    (call : LambdaLocal.InvokeRequest → Except String LambdaLocal.InvokeResponse) :
    (LambdaLocal.Invoke l now uuid dial call data).2.length ≤ 1
  ∧ (∀ req ∈ (LambdaLocal.Invoke l now uuid dial call data).2,
        req.payload = data
      ∧ req.deadlineSeconds = Int.ofNat ((now + l.executionLimit) / 1000000000)
      ∧ req.deadlineNanos = Int.ofNat ((now + l.executionLimit) % 1000000000))
  ∧ (∀ e, dial = Except.error e →
        (LambdaLocal.Invoke l now uuid dial call data).1 =
          (LambdaLocal.zeroInvokeResponse, some (LambdaLocal.dialErrorMsg l.address e))
      ∧ (LambdaLocal.Invoke l now uuid dial call data).2 = [])
  ∧ (dial = Except.ok () →
        (LambdaLocal.Invoke l now uuid dial call data).2.length = 1
      ∧ ∀ req ∈ (LambdaLocal.Invoke l now uuid dial call data).2,
          (∀ resp, call req = Except.ok resp →
              (LambdaLocal.Invoke l now uuid dial call data).1 = (resp, none))
        ∧ (∀ e, call req = Except.error e →
              (LambdaLocal.Invoke l now uuid dial call data).1 =
                (LambdaLocal.zeroInvokeResponse, some (LambdaLocal.callErrorMsg e)))) := by
  unfold LambdaLocal.Invoke
  cases dial with
  | error e =>
      refine ⟨by simp, by simp, ?_, ?_⟩
      · intro e' he
        cases he
        exact ⟨rfl, rfl⟩
      · intro hcontra
        cases hcontra
  | ok u =>
      cases u
      cases hc : call
          { payload := data
            requestId := uuid
            deadlineSeconds := Int.ofNat ((now + l.executionLimit) / 1000000000)
            deadlineNanos := Int.ofNat ((now + l.executionLimit) % 1000000000) } with
      | error err =>
          simp only [hc]
          refine ⟨by simp, ?_, ?_, ?_⟩
          · intro req hreq
            simp only [List.mem_singleton] at hreq
            subst hreq
            exact ⟨rfl, rfl, rfl⟩
          · intro e' he
            cases he
          · intro _
            refine ⟨rfl, ?_⟩
            intro req hreq
            simp only [List.mem_singleton] at hreq
            subst hreq
            constructor
            · intro resp hresp
              rw [hc] at hresp
              cases hresp
            · intro e' he
              rw [hc] at he
              cases he
              exact rfl
      | ok resp =>
          simp only [hc]
          refine ⟨by simp, ?_, ?_, ?_⟩
          · intro req hreq
            simp only [List.mem_singleton] at hreq
            subst hreq
            exact ⟨rfl, rfl, rfl⟩
          · intro e' he
            cases he
          · intro _
            refine ⟨rfl, ?_⟩
            intro req hreq
            simp only [List.mem_singleton] at hreq
            subst hreq
            constructor
            · intro resp' hresp
              rw [hc] at hresp
              cases hresp
              exact rfl
            · intro e' he
              rw [hc] at he
              cases he

namespace LambdaLocal

/-- The client configuration used by the `Invoke` witness. -/
def exampleClient : LambdaRPCClient :=
  { address := "localhost:8080"
    executionLimit := 250000000
    serviceMethod := "Function.Invoke" }

/-- The remote call used by the `Invoke` witness: it answers every request
with a fixed reply envelope. -/
def exampleCall : InvokeRequest → Except String InvokeResponse :=
  fun _ => Except.ok { payload := "reply", error := none }

/-- The one request the `Invoke` witness run issues. -/
def exampleRequestRecord : InvokeRequest :=
  { payload := "payload"
    requestId := "rid"
    deadlineSeconds := 1
    deadlineNanos := 250000000 }

end LambdaLocal

theorem LambdaLocal.Invoke_one_call_witness :
    (LambdaLocal.Invoke LambdaLocal.exampleClient 1000000000 "rid"
        (Except.ok ()) LambdaLocal.exampleCall "payload").2.length = 1
  ∧ (LambdaLocal.Invoke LambdaLocal.exampleClient 1000000000 "rid"
        (Except.ok ()) LambdaLocal.exampleCall "payload").1 =
      ({ payload := "reply", error := none }, none) :=
  by
    have h := LambdaLocal.Invoke_one_call LambdaLocal.exampleClient 1000000000 "rid" "payload"
      (Except.ok ()) LambdaLocal.exampleCall
    refine ⟨(h.2.2.2 rfl).1, ?_⟩
    have hreq := (h.2.2.2 rfl).2 LambdaLocal.exampleRequestRecord (by decide)
    exact hreq.1 { payload := "reply", error := none } rfl

namespace LambdaLocal

/-- Go's `strings.ToUpper` on the method strings appearing here (ASCII). -/
def toUpperGo (s : String) : String := String.mk (s.data.map Char.toUpper)

/-- `apiRoute` from api.go. -/
structure ApiRoute where
  method : String
  path : String
deriving DecidableEq

/-- The `Properties` of one event in the SAM template: `Path` and `Method`. -/
structure EventProperties where
  path : String
  method : String

/-- One entry of a resource's `Events` mapping. -/
structure SamEvent where
  eventType : String
  properties : EventProperties

/-- The `Properties` of one resource: its `Events` mapping, modelled as an
association list (YAML mapping keys are unique; Go iterates the map in
unspecified order, so only the multiset of events is meaningful). -/
structure ResourceProperties where
  events : List (String × SamEvent)

/-- One entry of the template's `Resources` mapping. -/
structure SamResource where
  resourceType : String
  properties : ResourceProperties

/-- `samTemplate` from api.go: the `Resources` mapping. -/
structure SamTemplate where
  resources : List (String × SamResource)

/-- The route-building double loop of `parseTemplate`: one route per declared
event, with the method upper-cased and the path taken verbatim. -/
def buildRoutes (SAMData : SamTemplate) : List ApiRoute :=
  SAMData.resources.flatMap (fun resource =>
    resource.2.properties.events.map (fun event =>
      { method := toUpperGo event.2.properties.method
        path := event.2.properties.path }))

/-- `parseTemplate` from api.go. `readResult` models `reader.read(templatePath)`
and `yamlUnmarshal` models `yaml.Unmarshal` on the file's contents; both
failure branches return the empty route slice together with a wrapped error,
mirroring the Go `return []apiRoute{}, fmt.Errorf(...)` statements. The Go
pair `([]apiRoute, error)` is returned as a pair of the route list and an
optional error message. -/
def parseTemplate (readResult : Except String String)
    (yamlUnmarshal : String → Except String SamTemplate) :
    List ApiRoute × Option String :=
  match readResult with
  | Except.error err =>
      ([], some ("[in lambdalocal.parseTemplate] read file failed: " ++ err))
  | Except.ok yamlFile =>
      match yamlUnmarshal yamlFile with
      | Except.error err =>
          ([], some ("[in lambdalocal.parseTemplate] unmarshal yaml failed: " ++ err))
      | Except.ok SAMData => (buildRoutes SAMData, none)

/-- First function of the spec example: one API event, `post /first`. -/
def firstResource : SamResource :=
  { resourceType := "AWS::Serverless::Function"
    properties :=
      { events :=
          [("ApiEvent",
            { eventType := "Api"
              properties := { path := "/first", method := "post" } })] } }

/-- Second function of the spec example: one API event, `put /second`. -/
def secondResource : SamResource :=
  { resourceType := "AWS::Serverless::Function"
    properties :=
      { events :=
          [("ApiEvent",
            { eventType := "Api"
              properties := { path := "/second", method := "put" } })] } }

/-- The spec example's descriptor, first function declared first. -/
def exampleTemplateA : SamTemplate :=
  { resources := [("FirstFunction", firstResource), ("SecondFunction", secondResource)] }

/-- The spec example's descriptor with the resource declaration order swapped. -/
def exampleTemplateB : SamTemplate :=
  { resources := [("SecondFunction", secondResource), ("FirstFunction", firstResource)] }

end LambdaLocal

/-- C6: on a successfully read and parsed descriptor, `parseTemplate` yields
exactly one route per declared event — the method upper-cased, the path
verbatim — and the resulting routes are permutation-invariant in the resource
declaration order; on the spec's two-function example both declaration orders
yield exactly the two routes `POST /first` and `PUT /second`. -/
theorem LambdaLocal.parseTemplate_routes (c : String)
    (yamlUnmarshal : String → Except String LambdaLocal.SamTemplate)
    (t : LambdaLocal.SamTemplate) (h : yamlUnmarshal c = Except.ok t) :
    (LambdaLocal.parseTemplate (Except.ok c) yamlUnmarshal).1 = LambdaLocal.buildRoutes t
  ∧ (LambdaLocal.buildRoutes t).length =
      (t.resources.map (fun r => r.2.properties.events.length)).sum
  ∧ (∀ rn res, (rn, res) ∈ t.resources → ∀ en ev, (en, ev) ∈ res.properties.events →
      ({ method := LambdaLocal.toUpperGo ev.properties.method,
         path := ev.properties.path } : LambdaLocal.ApiRoute) ∈ LambdaLocal.buildRoutes t)
  ∧ (∀ t₂ : LambdaLocal.SamTemplate, t.resources.Perm t₂.resources →
      (LambdaLocal.buildRoutes t).Perm (LambdaLocal.buildRoutes t₂))
  ∧ LambdaLocal.buildRoutes LambdaLocal.exampleTemplateA =
      [{ method := "POST", path := "/first" }, { method := "PUT", path := "/second" }]
  ∧ LambdaLocal.buildRoutes LambdaLocal.exampleTemplateB =
      [{ method := "PUT", path := "/second" }, { method := "POST", path := "/first" }] := by
  refine ⟨?_, ?_, ?_, ?_, by decide, by decide⟩
  · have step : LambdaLocal.parseTemplate (Except.ok c) yamlUnmarshal =
        match yamlUnmarshal c with
        | Except.error err =>
            ([], some ("[in lambdalocal.parseTemplate] unmarshal yaml failed: " ++ err))
        | Except.ok SAMData => (LambdaLocal.buildRoutes SAMData, none) := rfl
    rw [step, h]
  · unfold LambdaLocal.buildRoutes
    rw [List.length_flatMap]
    refine congrArg List.sum (List.map_congr_left ?_)
    intro r _
    simp
  · intro rn res hres en ev hev
    unfold LambdaLocal.buildRoutes
    rw [List.mem_flatMap]
    refine ⟨(rn, res), hres, ?_⟩
    exact List.mem_map_of_mem _ hev
  · intro t₂ hp
    exact hp.flatMap_right _

theorem LambdaLocal.parseTemplate_routes_witness :
    ((fun _ => Except.ok LambdaLocal.exampleTemplateA :
        String → Except String LambdaLocal.SamTemplate) "template.yaml" =
      Except.ok LambdaLocal.exampleTemplateA)
  ∧ (LambdaLocal.parseTemplate (Except.ok "template.yaml")
        (fun _ => Except.ok LambdaLocal.exampleTemplateA)).1 =
      [{ method := "POST", path := "/first" }, { method := "PUT", path := "/second" }] := by
  have h := LambdaLocal.parseTemplate_routes "template.yaml"
    (fun _ => Except.ok LambdaLocal.exampleTemplateA) LambdaLocal.exampleTemplateA rfl
  exact ⟨rfl, h.1.trans h.2.2.2.2.1⟩

/-- C10: whenever `parseTemplate` returns an error — a read failure or a parse
failure — the route collection it returns is empty; it never pairs an error
with a partially built route list. -/
theorem LambdaLocal.parseTemplate_error_empty (readResult : Except String String)
    (yamlUnmarshal : String → Except String LambdaLocal.SamTemplate)
    (h : (LambdaLocal.parseTemplate readResult yamlUnmarshal).2.isSome = true) :
    (LambdaLocal.parseTemplate readResult yamlUnmarshal).1 = [] := by
  cases readResult with
  | error e => rfl
  | ok c =>
      cases hy : yamlUnmarshal c with
      | error e => simp [LambdaLocal.parseTemplate, hy]
      | ok t => simp [LambdaLocal.parseTemplate, hy] at h

theorem LambdaLocal.parseTemplate_error_empty_witness :
    (LambdaLocal.parseTemplate (Except.error "no such file")
        (fun _ => Except.ok LambdaLocal.exampleTemplateA)).2.isSome = true
  ∧ (LambdaLocal.parseTemplate (Except.error "no such file")
        (fun _ => Except.ok LambdaLocal.exampleTemplateA)).1 = [] :=
  ⟨rfl, LambdaLocal.parseTemplate_error_empty (Except.error "no such file")
    (fun _ => Except.ok LambdaLocal.exampleTemplateA) rfl⟩
